import Mathlib

/-!
# Verification of the budget-app ledger and chart renderer (`src/budget.py`)

Shallow embedding of the repository's single source file.  Python numbers
(`int`/`float`, type alias `Number`) are modelled as exact rationals `ℚ`;
Python's `int(x)` conversion (truncation toward zero) is `int_trunc`, and
`math.floor` is `⌊·⌋`.  The float literal `0.1` in `_round_down_nearest_ten`
is modelled as the exact rational `1/10`.  Operations that raise a Python
exception (`reduce` over an empty sequence, division by zero) return `none`.
Ledger entries, stored in the source as dicts with keys `amount` and
`description`, are two-field records.  Python's `'c' * n` string repetition
(empty for negative `n`) is `pyCharRep`, slicing `s[:23]` is `strTake`, and
`str.rstrip()` is `pyRstrip`.
-/

/-- A ledger entry: the dict `{amount, description}` appended by
`deposit`/`withdraw`. -/
structure LedgerEntry where
  amount : ℚ
  description : String
deriving DecidableEq

/-- The `Category` class: a name and an ordered ledger. -/
structure Category where
  category_name : String
  ledger : List LedgerEntry
deriving DecidableEq

/-- Python `int(q)`: truncation toward zero (floor for nonnegative values,
ceiling for negative ones). -/
def int_trunc (q : ℚ) : ℤ := if 0 ≤ q then ⌊q⌋ else ⌈q⌉

/-- Python string repetition `c * n`: `n` copies of `c`, empty when `n` is
negative. -/
def pyCharRep (c : Char) (n : ℤ) : String := String.mk (List.replicate n.toNat c)

/-- Python slicing `s[:n]`. -/
def strTake (s : String) (n : ℕ) : String := String.mk (s.data.take n)

/-- Python `str.rstrip()`: drop trailing whitespace characters. -/
def pyRstrip (s : String) : String :=
  String.mk ((s.data.reverse.dropWhile
    (fun ch => ch == ' ' || ch == '\n' || ch == '\t' || ch == '\r')).reverse)

/-- Round a rational to the nearest integer, ties to even (the rounding used
by Python's fixed-point string formatting). -/
def roundHalfEven (q : ℚ) : ℤ :=
  if q - ⌊q⌋ < 1/2 then ⌊q⌋
  else if 1/2 < q - ⌊q⌋ then ⌊q⌋ + 1
  else if ⌊q⌋ % 2 = 0 then ⌊q⌋ else ⌊q⌋ + 1

/-- Two-digit rendering of `n % 100` with a leading zero. -/
def natPad2 (n : ℕ) : String := if n < 10 then "0" ++ toString n else toString n

/-- Python's fixed-point format specifier applied to a number: the model of
the f-string piece formatting `amount` to two decimal places. -/
def format2f (q : ℚ) : String :=
  let sign : String := if q < 0 then "-" else ""
  let n : ℕ := (roundHalfEven (|q| * 100)).toNat
  sign ++ toString (n / 100) ++ "." ++ natPad2 (n % 100)

/-- Left-pad a digit string with zeros to length `k`. -/
def padZeros (k : ℕ) (s : String) : String :=
  String.mk (List.replicate (k - s.length) '0') ++ s

/-- Python `str()` of a number, as interpolated by `format_total`.  Modelled
on rationals: integral values render like Python ints (no decimal point), and
values with a terminating decimal expansion render as that exact expansion
(which agrees with Python's shortest-round-trip float repr on the short
decimal values considered here); other rationals, unreachable from decimal
ledger inputs, fall back to a fraction rendering. -/
def pyNumRepr (q : ℚ) : String :=
  match (List.range 20).find? (fun k => (q * (10:ℚ) ^ k).den == 1) with
  | none => toString q.num ++ "/" ++ toString q.den
  | some k =>
    if k = 0 then toString q.num
    else
      let sign : String := if q < 0 then "-" else ""
      let n : ℕ := (q * (10:ℚ) ^ k).num.natAbs
      let base : ℕ := 10 ^ k
      sign ++ toString (n / base) ++ "." ++ padZeros k (toString (n % base))

/-- Sum of the amounts of a list of ledger entries (with `0` for the empty
list); `Category.get_balance` returns exactly this on non-empty ledgers. -/
def ledgerSum (l : List LedgerEntry) : ℚ := (l.map LedgerEntry.amount).sum

/-- `Category.get_balance`: `reduce(add, [amounts])`.  `functools.reduce`
without an initial value raises `TypeError` on an empty sequence, hence
`none` for an empty ledger. -/
def Category.get_balance (c : Category) : Option ℚ :=
  match c.ledger.map LedgerEntry.amount with
  | [] => none
  | a :: as => some (as.foldl (· + ·) a)

/-- `Category.check_funds`: `amount <= self.get_balance()`; propagates the
failure of `get_balance` on an empty ledger. -/
def Category.check_funds (c : Category) (amount : ℚ) : Option Bool :=
  (c.get_balance).map (fun b => decide (amount ≤ b))

/-- `Category.deposit`: unconditionally append `{amount, description}`. -/
def Category.deposit (c : Category) (amount : ℚ) (description : String := "") :
    Category :=
  { c with ledger := c.ledger ++ [⟨amount, description⟩] }

/-- `Category.withdraw`: append `{amount * -1, description}` and return `True`
when `check_funds(amount)` holds, else change nothing and return `False`;
propagates the `check_funds` failure on an empty ledger.  The returned pair is
(result, updated category). -/
def Category.withdraw (c : Category) (amount : ℚ) (description : String := "") :
    Option (Bool × Category) :=
  match c.check_funds amount with
  | none => none
  | some true =>
      some (true, { c with ledger := c.ledger ++ [⟨amount * -1, description⟩] })
  | some false => some (false, c)

/-- `Category.transfer`: withdraw from `self` with description
`"Transfer to <target name>"`; on success deposit into the target with
description `"Transfer from <self name>"`.  Returns
(result, updated self, updated target). -/
def Category.transfer (c : Category) (amount : ℚ) (category : Category) :
    Option (Bool × Category × Category) :=
  match c.withdraw amount ("Transfer to " ++ category.category_name) with
  | none => none
  | some (true, c') =>
      some (true, c', category.deposit amount ("Transfer from " ++ c.category_name))
  | some (false, c') => some (false, c', category)

/-- `format_header` from `Category.__str__`: asterisk-centred name,
`left = int((30 - len(name)) / 2)`, `right = 30 - len(name) - left`. -/
def format_header (name : String) : String :=
  let left_star_multiplier : ℤ := int_trunc (((30 - (name.length : ℤ) : ℤ) : ℚ) / 2)
  let right_star_multiplier : ℤ := 30 - (name.length : ℤ) - left_star_multiplier
  pyCharRep '*' left_star_multiplier ++ name ++ pyCharRep '*' right_star_multiplier

/-- `format_ledger_entry` from `Category.__str__`: description truncated to 23
characters, two-decimal amount, space padding `30 - len(amount) - len(desc)`. -/
def format_ledger_entry (e : LedgerEntry) : String :=
  let description : String := strTake e.description 23
  let amount : String := format2f e.amount
  let space_multiplier : ℤ := 30 - (amount.length : ℤ) - (description.length : ℤ)
  description ++ pyCharRep ' ' space_multiplier ++ amount

/-- `format_total` from `Category.__str__`: the f-string interpolates the raw
balance value with `str()`, with no two-decimal formatting. -/
def format_total (amount : ℚ) : String := "Total: " ++ pyNumRepr amount

/-- `Category.__str__`: header line, one line per ledger entry, then the total
line.  `format_total(self.get_balance())` raises on an empty ledger, hence
`none` there. -/
def Category.str (c : Category) : Option String :=
  (c.get_balance).map (fun b =>
    format_header c.category_name ++ "\n" ++
    c.ledger.foldl (fun acc e => acc ++ format_ledger_entry e ++ "\n") "" ++
    format_total b)

/-- First line of a rendered string (up to the first newline). -/
def firstLine (s : String) : String := String.mk (s.data.takeWhile (· ≠ '\n'))

/-- Last line of a rendered string (after the last newline). -/
def lastLine (s : String) : String :=
  String.mk ((s.data.reverse.takeWhile (· ≠ '\n')).reverse)

/-- `_calculate_category_withdraw`: total withdraw magnitude, the sum of
`amount * -1` over the negative ledger entries. -/
def _calculate_category_withdraw (category : Category) : ℚ :=
  category.ledger.foldl (fun w e => if e.amount < 0 then w + e.amount * -1 else w) 0

/-- `_round_down_nearest_ten`: `int(math.floor(value * 0.1) / 0.1)` with the
float literal `0.1` modelled as the exact rational `1/10`. -/
def _round_down_nearest_ten (value : ℤ) : ℤ :=
  int_trunc (((⌊(value : ℚ) * (1/10 : ℚ)⌋ : ℤ) : ℚ) / (1/10 : ℚ))

/-- `_resolve_percentage`: `int(value / total * 100)` rounded down to the
nearest ten; `none` models the `ZeroDivisionError` when `total` is zero. -/
def _resolve_percentage (value total : ℚ) : Option ℤ :=
  if total = 0 then none
  else some (_round_down_nearest_ten (int_trunc (value / total * 100)))

/-- `_format_y_labels`: the four left-margin columns (three digit columns and
the `|` column), each of height `12 + longest_category_name`. -/
def _format_y_labels (longest_category_name : ℕ) : List (List Char) :=
  [['1'] ++ List.replicate (11 + longest_category_name) ' ',
   ['0', '9', '8', '7', '6', '5', '4', '3', '2', '1', ' ', ' '] ++
     List.replicate longest_category_name ' ',
   List.replicate 11 '0' ++ List.replicate (1 + longest_category_name) ' ',
   List.replicate 11 '|' ++ List.replicate (1 + longest_category_name) ' ']

/-- `_format_blank_columm` (source spelling): a blank column with the `-`
separator cell at row 11. -/
def _format_blank_columm (longest_category_name : ℕ) : List (List Char) :=
  [List.replicate 11 ' ' ++ ['-'] ++ List.replicate longest_category_name ' ']

/-- `_format_category_column`: one content column (blank cells above the bar,
`o` cells, the `-` separator, the vertical name, blank padding) followed by
two blank columns. -/
def _format_category_column (longest_category_name : ℕ) (category_name : String)
    (category_percentage : ℤ) : List (List Char) :=
  let top_fillers : List Char :=
    List.replicate (int_trunc ((10 : ℚ) - (category_percentage : ℚ) / 10)).toNat ' '
  let o_fillers : List Char :=
    List.replicate (int_trunc ((category_percentage : ℚ) / 10 + 1)).toNat 'o'
  let bottom_fillers : List Char :=
    List.replicate ((longest_category_name : ℤ) - (category_name.length : ℤ)).toNat ' '
  [top_fillers ++ o_fillers ++ ['-'] ++ category_name.data ++ bottom_fillers] ++
    _format_blank_columm longest_category_name ++
    _format_blank_columm longest_category_name

/-- Python's `list(map(f, xs))` for a fallible `f`: the whole list, or `none`
as soon as some call raises. -/
def mapOrFail {α β : Type} (f : α → Option β) : List α → Option (List β)
  | [] => some []
  | x :: xs =>
    match f x with
    | none => none
    | some y =>
      match mapOrFail f xs with
      | none => none
      | some ys => some (y :: ys)

/-- `y_length` in `create_spend_chart`: `reduce(max, name lengths)`, which
raises on an empty category list. -/
def chart_y_length (categories : List Category) : Option ℕ :=
  match categories.map (fun c => c.category_name.length) with
  | [] => none
  | n :: ns => some (ns.foldl max n)

/-- `total_withdraw` in `create_spend_chart`:
`int(reduce(add, category_withdraw, 0.0))`. -/
def chart_total_withdraw (categories : List Category) : ℤ :=
  int_trunc ((categories.map _calculate_category_withdraw).foldl (· + ·) 0)

/-- The `string_list` built by `create_spend_chart`, paired with `y_length`:
the y-axis label columns, one blank column, then for each category a content
column and two blank columns.  `none` when the category list is empty or when
`_resolve_percentage` divides by zero. -/
def chart_columns (categories : List Category) : Option (ℕ × List (List Char)) :=
  (chart_y_length categories).bind (fun y_length =>
    (mapOrFail
        (fun v => _resolve_percentage v ((chart_total_withdraw categories : ℤ) : ℚ))
        (categories.map _calculate_category_withdraw)).map (fun withdraw_percents =>
      (y_length,
        _format_y_labels y_length ++ _format_blank_columm y_length ++
          ((categories.zip withdraw_percents).flatMap
            (fun cp => _format_category_column y_length cp.1.category_name cp.2)))))

/-- The character grid serialized by `create_spend_chart`'s nested loop: for
each row index `i < y_length + 12`, the cells `string_list[j][i]` across all
columns `j`.  This is the output after the title line and before the
trailing-whitespace trimming. -/
def chart_grid (categories : List Category) : Option (List (List Char)) :=
  (chart_columns categories).map (fun yc =>
    (List.range (yc.1 + 12)).map (fun i => yc.2.map (fun col => col.getD i ' ')))

/-- `create_spend_chart`: title line, the serialized grid rows, trailing
whitespace stripped, and a final double space. -/
def create_spend_chart (categories : List Category) : Option String :=
  (chart_grid categories).map (fun rows =>
    pyRstrip ("Percentage spent by category\n" ++
      rows.foldl (fun acc row => acc ++ String.mk row ++ "\n") "") ++ "  ")

/-! ## Basic lemmas about the embedding -/

theorem foldl_add_eq_add_sum (a : ℚ) (l : List ℚ) : l.foldl (· + ·) a = a + l.sum := by
  induction l generalizing a with
  | nil => simp
  | cons x xs ih => rw [List.foldl_cons, ih (a + x), List.sum_cons]; ring

theorem get_balance_eq_ledgerSum (c : Category) (h : c.ledger ≠ []) :
    c.get_balance = some (ledgerSum c.ledger) := by
  match hc : c.ledger with
  | [] => exact absurd hc h
  | e :: es =>
      simp only [Category.get_balance, hc, List.map_cons, ledgerSum, List.sum_cons,
        foldl_add_eq_add_sum]

theorem get_balance_of_nil (c : Category) (h : c.ledger = []) : c.get_balance = none := by
  simp [Category.get_balance, h]

theorem ledger_ne_nil_of_balance (c : Category) (b : ℚ) (hb : c.get_balance = some b) :
    c.ledger ≠ [] := by
  intro h
  rw [get_balance_of_nil c h] at hb
  exact Option.noConfusion hb

theorem ledgerSum_eq_of_balance (c : Category) (b : ℚ) (hb : c.get_balance = some b) :
    ledgerSum c.ledger = b := by
  have h := get_balance_eq_ledgerSum c (ledger_ne_nil_of_balance c b hb)
  rw [h] at hb
  exact Option.some.inj hb

theorem ledgerSum_append (l : List LedgerEntry) (e : LedgerEntry) :
    ledgerSum (l ++ [e]) = ledgerSum l + e.amount := by
  simp [ledgerSum]

theorem get_balance_append (c : Category) (l : List LedgerEntry) (e : LedgerEntry)
    (h : c.ledger = l ++ [e]) : c.get_balance = some (ledgerSum l + e.amount) := by
  rw [get_balance_eq_ledgerSum c (by simp [h]), h, ledgerSum_append]

theorem withdraw_eq_of_balance (c : Category) (b : ℚ) (hb : c.get_balance = some b)
    (amount : ℚ) (d : String) :
    c.withdraw amount d =
      if amount ≤ b then
        some (true, { c with ledger := c.ledger ++ [⟨amount * -1, d⟩] })
      else some (false, c) := by
  unfold Category.withdraw Category.check_funds
  rw [hb]
  by_cases h : amount ≤ b
  · simp [h]
  · simp [h]

theorem withdraw_success_inv (c c' : Category) (amount : ℚ) (d : String)
    (h : c.withdraw amount d = some (true, c')) :
    ∃ b, c.get_balance = some b ∧ amount ≤ b ∧
      c' = { c with ledger := c.ledger ++ [⟨amount * -1, d⟩] } := by
  cases hb : c.get_balance with
  | none =>
      unfold Category.withdraw Category.check_funds at h
      rw [hb] at h
      simp at h
  | some b =>
      rw [withdraw_eq_of_balance c b hb amount d] at h
      by_cases hle : amount ≤ b
      · rw [if_pos hle] at h
        refine ⟨b, rfl, hle, ?_⟩
        exact ((Prod.mk.injEq _ _ _ _).mp (Option.some.inj h)).2.symm
      · rw [if_neg hle] at h
        simp at h

theorem transfer_success_inv (c tgt src' tgt' : Category) (amount : ℚ)
    (h : c.transfer amount tgt = some (true, src', tgt')) :
    c.withdraw amount ("Transfer to " ++ tgt.category_name) = some (true, src') ∧
    tgt' = tgt.deposit amount ("Transfer from " ++ c.category_name) := by
  unfold Category.transfer at h
  cases hw : c.withdraw amount ("Transfer to " ++ tgt.category_name) with
  | none => rw [hw] at h; simp at h
  | some p =>
      rw [hw] at h
      match p with
      | (true, c') =>
          simp only [Option.some.injEq, Prod.mk.injEq, true_and] at h
          exact ⟨by rw [h.1], h.2.symm⟩
      | (false, c') => simp at h

/-- Claim C1: for a category with a non-empty ledger (balance `b`),
`withdraw(amount, d)` returns `True` iff `amount ≤ b` at call time; on `True`
exactly the entry `⟨-amount, d⟩` is appended and the balance becomes
`b - amount`; on `False` the category is unchanged. -/
theorem C1_withdraw_correct (c : Category) (b amount : ℚ) (d : String)
    (hb : c.get_balance = some b) :
    ((c.withdraw amount d).map Prod.fst = some true ↔ amount ≤ b) ∧
    (amount ≤ b →
      c.withdraw amount d =
        some (true, { c with ledger := c.ledger ++ [⟨-amount, d⟩] }) ∧
      Category.get_balance { c with ledger := c.ledger ++ [⟨-amount, d⟩] } =
        some (b - amount)) ∧
    (¬ amount ≤ b → c.withdraw amount d = some (false, c)) := by
  have hw := withdraw_eq_of_balance c b hb amount d
  have hneg : amount * -1 = -amount := by ring
  rw [hneg] at hw
  have hbal : Category.get_balance { c with ledger := c.ledger ++ [⟨-amount, d⟩] } =
      some (b - amount) := by
    rw [get_balance_append _ c.ledger ⟨-amount, d⟩ rfl, ledgerSum_eq_of_balance c b hb]
    rw [sub_eq_add_neg]
  refine ⟨⟨fun h => ?_, fun h => ?_⟩, fun h => ⟨by rw [hw, if_pos h], hbal⟩,
    fun h => by rw [hw, if_neg h]⟩
  · by_contra hle
    rw [hw, if_neg hle] at h
    simp at h
  · rw [hw, if_pos h]
    rfl

/-- Witness for C1 on the category `Food` holding a single deposit of 1000,
withdrawing 200. -/
theorem C1_witness :
    (Category.mk "Food" [⟨1000, "deposit"⟩]).get_balance = some 1000 ∧
    ((((Category.mk "Food" [⟨1000, "deposit"⟩]).withdraw 200 "groceries").map Prod.fst
        = some true ↔ (200 : ℚ) ≤ 1000) ∧
    ((200 : ℚ) ≤ 1000 →
      (Category.mk "Food" [⟨1000, "deposit"⟩]).withdraw 200 "groceries" =
        some (true, Category.mk "Food" [⟨1000, "deposit"⟩, ⟨-200, "groceries"⟩]) ∧
      (Category.mk "Food" [⟨1000, "deposit"⟩, ⟨-200, "groceries"⟩]).get_balance =
        some (1000 - 200)) ∧
    (¬ (200 : ℚ) ≤ 1000 →
      (Category.mk "Food" [⟨1000, "deposit"⟩]).withdraw 200 "groceries" =
        some (false, Category.mk "Food" [⟨1000, "deposit"⟩]))) := by
  have hb : (Category.mk "Food" [⟨1000, "deposit"⟩]).get_balance = some 1000 := rfl
  exact ⟨hb, C1_withdraw_correct (Category.mk "Food" [⟨1000, "deposit"⟩]) 1000 200
    "groceries" hb⟩

/-- Claim C3: whenever a `withdraw` or `transfer` call returns `True`, the
balance of the category it was called on is nonnegative immediately
afterwards, for every starting state (negative starting balances included). -/
theorem C3_balance_nonneg_after_success (c : Category) (amount : ℚ) (d : String) :
    (∀ c', c.withdraw amount d = some (true, c') →
      ∃ b', c'.get_balance = some b' ∧ 0 ≤ b') ∧
    (∀ tgt src' tgt', c.transfer amount tgt = some (true, src', tgt') →
      ∃ b', src'.get_balance = some b' ∧ 0 ≤ b') := by
  have key : ∀ d' c', c.withdraw amount d' = some (true, c') →
      ∃ b', c'.get_balance = some b' ∧ 0 ≤ b' := by
    intro d' c' h
    obtain ⟨b, hb, hle, hc'⟩ := withdraw_success_inv c c' amount d' h
    refine ⟨b + amount * -1, ?_, by linarith⟩
    rw [hc', get_balance_append _ c.ledger ⟨amount * -1, d'⟩ rfl,
      ledgerSum_eq_of_balance c b hb]
  refine ⟨key d, fun tgt src' tgt' h => ?_⟩
  exact key _ src' (transfer_success_inv c tgt src' tgt' amount h).1

/-- Witness for C3: a successful withdraw of 3 from a balance of 5 leaves a
nonnegative balance. -/
theorem C3_witness :
    ∃ b', (Category.mk "F" [⟨5, "d"⟩, ⟨-3, "w"⟩]).get_balance = some b' ∧ 0 ≤ b' :=
  (C3_balance_nonneg_after_success (Category.mk "F" [⟨5, "d"⟩]) 3 "w").1
    (Category.mk "F" [⟨5, "d"⟩, ⟨-3, "w"⟩]) (by with_unfolding_all rfl)

/-- Claim C4: on a non-empty ledger `get_balance` is exactly the sum of all
entry amounts; on an empty ledger the seedless reduction fails, and
`check_funds` and `withdraw` fail with it. -/
theorem C4_get_balance_spec (c : Category) (amount : ℚ) (d : String) :
    (c.ledger ≠ [] → c.get_balance = some (ledgerSum c.ledger)) ∧
    (c.ledger = [] →
      c.get_balance = none ∧ c.check_funds amount = none ∧
        c.withdraw amount d = none) := by
  refine ⟨get_balance_eq_ledgerSum c, fun h => ?_⟩
  have hg := get_balance_of_nil c h
  exact ⟨hg, by simp [Category.check_funds, hg],
    by simp [Category.withdraw, Category.check_funds, hg]⟩

/-- Witness for C4: the sum on a two-entry ledger, and the three failures on
a fresh category. -/
theorem C4_witness :
    (Category.mk "Food" [⟨100, "d"⟩, ⟨-30, "w"⟩]).get_balance = some 70 ∧
    (Category.mk "Fresh" []).get_balance = none ∧
    (Category.mk "Fresh" []).check_funds 5 = none ∧
    (Category.mk "Fresh" []).withdraw 5 "x" = none := by
  have h1 := (C4_get_balance_spec (Category.mk "Food" [⟨100, "d"⟩, ⟨-30, "w"⟩]) 5 "x").1
    (by simp)
  have h2 := (C4_get_balance_spec (Category.mk "Fresh" []) 5 "x").2 rfl
  refine ⟨?_, h2.1, h2.2.1, h2.2.2⟩
  rw [h1]
  with_unfolding_all rfl

/-- Counterexample to C5 as stated: with ledger `[-10]` (reached by a negative
deposit) and the strictly negative amount `-1`, the funds check fails
(`-1 ≤ -10` is false) and `withdraw` returns `False`, not `True`. -/
theorem C5_counterexample :
    (Category.mk "Neg" [⟨-10, "seed"⟩]).check_funds (-1) = some false ∧
    (Category.mk "Neg" [⟨-10, "seed"⟩]).withdraw (-1) "w" =
      some (false, Category.mk "Neg" [⟨-10, "seed"⟩]) := by
  constructor
  · with_unfolding_all rfl
  · with_unfolding_all rfl

/-- Claim C5 as amended: for a category with a non-empty ledger and
nonnegative balance, a strictly negative amount always passes the funds check,
and `withdraw` appends the strictly positive amount `-amount` and returns
`True`. -/
theorem C5_amended_negative_withdraw (c : Category) (b amount : ℚ) (d : String)
    (hb : c.get_balance = some b) (h0 : 0 ≤ b) (ha : amount < 0) :
    c.check_funds amount = some true ∧
    c.withdraw amount d =
      some (true, { c with ledger := c.ledger ++ [⟨-amount, d⟩] }) ∧
    0 < -amount := by
  have hle : amount ≤ b := le_trans (le_of_lt ha) h0
  have hw := withdraw_eq_of_balance c b hb amount d
  have hneg : amount * -1 = -amount := by ring
  rw [hneg] at hw
  exact ⟨by simp [Category.check_funds, hb, hle], by rw [hw, if_pos hle], by linarith⟩

/-- Witness for the amended C5: withdrawing `-2` from a balance of 5 records
`+2` and succeeds. -/
theorem C5_witness :
    (Category.mk "Pos" [⟨5, "d"⟩]).check_funds (-2) = some true ∧
    (Category.mk "Pos" [⟨5, "d"⟩]).withdraw (-2) "neg" =
      some (true, Category.mk "Pos" [⟨5, "d"⟩, ⟨-(-2), "neg"⟩]) ∧
    (0 : ℚ) < -(-2) :=
  C5_amended_negative_withdraw (Category.mk "Pos" [⟨5, "d"⟩]) 5 (-2) "neg" rfl
    (by with_unfolding_all rfl) (by with_unfolding_all rfl)

/-- Claim C2: for a source category with a non-empty ledger (balance `b`) and
any target, `transfer(amount, target)` returns `True` iff `amount ≤ b`; on
success the source gains the entry `⟨-amount, "Transfer to <target>"⟩`, the
target gains `⟨amount, "Transfer from <source>"⟩`, and the combined ledger sum
is conserved; on failure neither ledger changes. -/
theorem C2_transfer_correct (src tgt : Category) (b amount : ℚ)
    (hb : src.get_balance = some b) :
    ((src.transfer amount tgt).map Prod.fst = some true ↔ amount ≤ b) ∧
    (amount ≤ b →
      src.transfer amount tgt =
        some (true,
          { src with ledger := src.ledger ++
              [⟨-amount, "Transfer to " ++ tgt.category_name⟩] },
          { tgt with ledger := tgt.ledger ++
              [⟨amount, "Transfer from " ++ src.category_name⟩] }) ∧
      ledgerSum (src.ledger ++ [⟨-amount, "Transfer to " ++ tgt.category_name⟩]) +
          ledgerSum (tgt.ledger ++ [⟨amount, "Transfer from " ++ src.category_name⟩]) =
        ledgerSum src.ledger + ledgerSum tgt.ledger) ∧
    (¬ amount ≤ b → src.transfer amount tgt = some (false, src, tgt)) := by
  have hw := withdraw_eq_of_balance src b hb amount ("Transfer to " ++ tgt.category_name)
  have hneg : amount * -1 = -amount := by ring
  rw [hneg] at hw
  have htrue : amount ≤ b → src.transfer amount tgt =
      some (true,
        { src with ledger := src.ledger ++
            [⟨-amount, "Transfer to " ++ tgt.category_name⟩] },
        { tgt with ledger := tgt.ledger ++
            [⟨amount, "Transfer from " ++ src.category_name⟩] }) := by
    intro h
    unfold Category.transfer
    rw [hw, if_pos h]
    rfl
  have hfalse : ¬ amount ≤ b → src.transfer amount tgt = some (false, src, tgt) := by
    intro h
    unfold Category.transfer
    rw [hw, if_neg h]
  refine ⟨?_, fun h => ⟨htrue h, ?_⟩, hfalse⟩
  · by_cases hle : amount ≤ b
    · rw [htrue hle]; simp [hle]
    · rw [hfalse hle]; simp [hle]
  · rw [ledgerSum_append, ledgerSum_append]
    ring

/-- Witness for C2: transferring 50 from `Food` (balance 800) to a fresh
`Clothing` category. -/
theorem C2_witness :
    (Category.mk "Food" [⟨800, "deposit"⟩]).get_balance = some 800 ∧
    ((((Category.mk "Food" [⟨800, "deposit"⟩]).transfer 50
          (Category.mk "Clothing" [])).map Prod.fst = some true ↔ (50 : ℚ) ≤ 800) ∧
    ((50 : ℚ) ≤ 800 →
      (Category.mk "Food" [⟨800, "deposit"⟩]).transfer 50 (Category.mk "Clothing" []) =
        some (true,
          Category.mk "Food"
            ([⟨800, "deposit"⟩] ++ [⟨-50, "Transfer to " ++ "Clothing"⟩]),
          Category.mk "Clothing"
            (([] : List LedgerEntry) ++ [⟨50, "Transfer from " ++ "Food"⟩])) ∧
      ledgerSum ([⟨800, "deposit"⟩] ++ [⟨-50, "Transfer to " ++ "Clothing"⟩]) +
          ledgerSum (([] : List LedgerEntry) ++ [⟨50, "Transfer from " ++ "Food"⟩]) =
        ledgerSum [⟨800, "deposit"⟩] + ledgerSum ([] : List LedgerEntry)) ∧
    (¬ (50 : ℚ) ≤ 800 →
      (Category.mk "Food" [⟨800, "deposit"⟩]).transfer 50 (Category.mk "Clothing" []) =
        some (false, Category.mk "Food" [⟨800, "deposit"⟩], Category.mk "Clothing" []))) :=
  ⟨rfl, C2_transfer_correct (Category.mk "Food" [⟨800, "deposit"⟩])
    (Category.mk "Clothing" []) 800 50 rfl⟩

theorem pyCharRep_length (c : Char) (n : ℤ) : (pyCharRep c n).length = n.toNat := by
  simp [pyCharRep]

theorem strTake_length (s : String) (n : ℕ) : (strTake s n).length = min n s.length := by
  simp only [strTake, String.mk_length, List.length_take]
  rfl

theorem int_trunc_of_nonneg (q : ℚ) (h : 0 ≤ q) : int_trunc q = ⌊q⌋ := if_pos h

theorem int_trunc_intCast (n : ℤ) : int_trunc (n : ℚ) = n := by
  unfold int_trunc
  split
  · exact Int.floor_intCast n
  · exact Int.ceil_intCast n

theorem format_header_length (name : String) (h : name.length ≤ 30) :
    (format_header name).length = 30 := by
  have ha : (0 : ℚ) ≤ ((30 - (name.length : ℤ) : ℤ) : ℚ) := by
    have hz : (0 : ℤ) ≤ 30 - (name.length : ℤ) := by omega
    exact_mod_cast hz
  have hq : (0 : ℚ) ≤ ((30 - (name.length : ℤ) : ℤ) : ℚ) / 2 :=
    div_nonneg ha (by norm_num)
  have hLfloor : int_trunc (((30 - (name.length : ℤ) : ℤ) : ℚ) / 2) =
      ⌊((30 - (name.length : ℤ) : ℤ) : ℚ) / 2⌋ := int_trunc_of_nonneg _ hq
  have hL0 : 0 ≤ int_trunc (((30 - (name.length : ℤ) : ℤ) : ℚ) / 2) := by
    rw [hLfloor]
    exact Int.floor_nonneg.mpr hq
  have hLle : int_trunc (((30 - (name.length : ℤ) : ℤ) : ℚ) / 2) ≤
      30 - (name.length : ℤ) := by
    rw [hLfloor]
    calc ⌊((30 - (name.length : ℤ) : ℤ) : ℚ) / 2⌋
        ≤ ⌊((30 - (name.length : ℤ) : ℤ) : ℚ)⌋ :=
          Int.floor_le_floor (div_le_self ha (by norm_num))
    _ = 30 - (name.length : ℤ) := Int.floor_intCast _
  simp only [format_header, String.length_append, pyCharRep_length]
  omega

theorem format_ledger_entry_length (e : LedgerEntry)
    (h : (format2f e.amount).length + min 23 e.description.length ≤ 30) :
    (format_ledger_entry e).length = 30 := by
  simp only [format_ledger_entry, String.length_append, pyCharRep_length, strTake_length]
  omega

/-- Claim C6 as amended: for a category with a non-empty ledger whose name is
at most 30 characters and each of whose entries has a formatted amount and
truncated description fitting in 30 columns, the header line is exactly 30
characters and every ledger-entry line is exactly 30 characters. -/
theorem C6_amended_line_widths (c : Category)
    (hne : c.ledger ≠ [])
    (hname : c.category_name.length ≤ 30)
    (hentries : ∀ e ∈ c.ledger,
      (format2f e.amount).length + min 23 e.description.length ≤ 30) :
    (format_header c.category_name).length = 30 ∧
    ∀ e ∈ c.ledger, (format_ledger_entry e).length = 30 := by
  have _ := hne
  exact ⟨format_header_length c.category_name hname,
    fun e he => format_ledger_entry_length e (hentries e he)⟩

/-- Witness for the amended C6 on `Food` with a single 1000.00 deposit. -/
theorem C6_witness :
    (format_header (Category.mk "Food" [⟨1000, "deposit"⟩]).category_name).length = 30 ∧
    ∀ e ∈ (Category.mk "Food" [⟨1000, "deposit"⟩]).ledger,
      (format_ledger_entry e).length = 30 :=
  C6_amended_line_widths (Category.mk "Food" [⟨1000, "deposit"⟩]) (by simp)
    (by decide) (of_decide_eq_true (by with_unfolding_all rfl))

/-- Counterexample to C6 as stated: a category whose name has 31 characters
renders a header line of 31 characters, not 30 (the asterisk repetitions are
empty for the negative multipliers). -/
theorem C6_counterexample :
    ((Category.mk (String.mk (List.replicate 31 'A')) [⟨0, "seed"⟩]).str.map
      (fun s => (firstLine s).length)) = some 31 := by
  with_unfolding_all rfl

/-- Claim C7 (code bug): the rendered total line interpolates the raw balance
with `str()` — for the `Food` scenario with balance 800 it reads
`"Total: 800"` — whereas two-decimal formatting would give `"Total: 800.00"`. -/
theorem C7_total_line_not_two_decimals :
    ((Category.mk "Food" [⟨1000, "deposit"⟩, ⟨-200, "groceries"⟩]).str.map lastLine) =
      some "Total: 800" ∧
    "Total: " ++ format2f 800 = "Total: 800.00" := by
  constructor
  · with_unfolding_all rfl
  · with_unfolding_all rfl

theorem round_down_nearest_ten_eq (p : ℤ) :
    _round_down_nearest_ten p = 10 * ⌊(p : ℚ) / 10⌋ := by
  unfold _round_down_nearest_ten
  have h1 : (p : ℚ) * (1/10) = (p : ℚ) / 10 := by ring
  rw [h1]
  have h2 : ((⌊(p : ℚ) / 10⌋ : ℤ) : ℚ) / (1/10 : ℚ) = ((10 * ⌊(p : ℚ) / 10⌋ : ℤ) : ℚ) := by
    push_cast
    ring
  rw [h2, int_trunc_intCast]

/-- Claim C8: for `value ≥ 0` and `total > 0`, `_resolve_percentage` is the
floor of `value / total * 100` rounded down to the nearest multiple of ten,
and in particular maps `(30, 100) ↦ 30`, `(47, 100) ↦ 40`, `(0, 100) ↦ 0`. -/
theorem C8_resolve_percentage (value total : ℚ) (hv : 0 ≤ value) (ht : 0 < total) :
    _resolve_percentage value total =
      some (10 * ⌊((⌊value / total * 100⌋ : ℤ) : ℚ) / 10⌋) ∧
    _resolve_percentage 30 100 = some 30 ∧
    _resolve_percentage 47 100 = some 40 ∧
    _resolve_percentage 0 100 = some 0 := by
  refine ⟨?_, by with_unfolding_all rfl, by with_unfolding_all rfl,
    by with_unfolding_all rfl⟩
  unfold _resolve_percentage
  rw [if_neg (ne_of_gt ht)]
  have hq : 0 ≤ value / total * 100 :=
    mul_nonneg (div_nonneg hv (le_of_lt ht)) (by norm_num)
  rw [int_trunc_of_nonneg _ hq, round_down_nearest_ten_eq]

/-- Witness for C8 at `(47, 100)`. -/
theorem C8_witness :
    _resolve_percentage 47 100 =
      some (10 * ⌊((⌊(47 : ℚ) / 100 * 100⌋ : ℤ) : ℚ) / 10⌋) :=
  (C8_resolve_percentage 47 100 (by decide) (by decide)).1

theorem mapOrFail_length {α β : Type} (f : α → Option β) :
    ∀ (l : List α) (rs : List β), mapOrFail f l = some rs → rs.length = l.length := by
  intro l
  induction l with
  | nil =>
      intro rs h
      simp only [mapOrFail, Option.some.injEq] at h
      subst h
      rfl
  | cons x xs ih =>
      intro rs h
      cases hf : f x with
      | none => simp [mapOrFail, hf] at h
      | some y =>
          cases hm : mapOrFail f xs with
          | none => simp [mapOrFail, hf, hm] at h
          | some ys =>
              simp only [mapOrFail, hf, hm, Option.some.injEq] at h
              rw [← h, List.length_cons, ih ys hm, List.length_cons]

theorem format_category_column_length (y : ℕ) (n : String) (p : ℤ) :
    (_format_category_column y n p).length = 3 := rfl

theorem format_y_labels_length (y : ℕ) : (_format_y_labels y).length = 4 := rfl

theorem format_blank_columm_length (y : ℕ) : (_format_blank_columm y).length = 1 := rfl

theorem flatMap_columns_length (y : ℕ) (l : List (Category × ℤ)) :
    (l.flatMap (fun cp => _format_category_column y cp.1.category_name cp.2)).length =
      3 * l.length := by
  induction l with
  | nil => rfl
  | cons a as ih =>
      simp only [List.flatMap_cons, List.length_append, ih,
        format_category_column_length, List.length_cons]
      ring

theorem chart_columns_spec (categories : List Category) (y : ℕ) (cols : List (List Char))
    (h : chart_columns categories = some (y, cols)) :
    chart_y_length categories = some y ∧ cols.length = 5 + 3 * categories.length := by
  unfold chart_columns at h
  cases hy : chart_y_length categories with
  | none => rw [hy] at h; simp at h
  | some y0 =>
      rw [hy] at h
      cases hm : mapOrFail
          (fun v => _resolve_percentage v ((chart_total_withdraw categories : ℤ) : ℚ))
          (categories.map _calculate_category_withdraw) with
      | none => rw [hm] at h; simp at h
      | some ps =>
          rw [hm] at h
          simp only [Option.some_bind, Option.map_some', Option.some.injEq,
            Prod.mk.injEq] at h
          obtain ⟨hy0, hcols⟩ := h
          subst hy0
          refine ⟨rfl, ?_⟩
          have hps : ps.length = categories.length := by
            rw [mapOrFail_length _ _ _ hm, List.length_map]
          rw [← hcols, List.length_append, List.length_append,
            format_y_labels_length, format_blank_columm_length,
            flatMap_columns_length, List.length_zip, hps, min_self]

/-- Claim C9 as amended: whenever `create_spend_chart` succeeds, the rendered
grid has `12 + y_length` rows (11 bar rows, one separator row, and `y_length`
vertical-name rows), and every row has `5 + 3 * (number of categories)`
cells. -/
theorem C9_amended_grid_dimensions (categories : List Category) (y : ℕ)
    (g : List (List Char)) (hy : chart_y_length categories = some y)
    (hg : chart_grid categories = some g) :
    g.length = 12 + y ∧ ∀ row ∈ g, row.length = 5 + 3 * categories.length := by
  unfold chart_grid at hg
  cases hc : chart_columns categories with
  | none => rw [hc] at hg; simp at hg
  | some yc =>
      rw [hc] at hg
      simp only [Option.map_some', Option.some.injEq] at hg
      obtain ⟨hy', hlen⟩ := chart_columns_spec categories yc.1 yc.2 (by rw [hc])
      rw [hy'] at hy
      have hyy : yc.1 = y := Option.some.inj hy
      constructor
      · rw [← hg, List.length_map, List.length_range, hyy]
        omega
      · intro row hrow
        rw [← hg] at hrow
        obtain ⟨i, _, hrowe⟩ := List.mem_map.mp hrow
        rw [← hrowe, List.length_map, hlen]

/-- Counterexample to C9 as stated: for the single category `A` (name length
1) the grid has 13 rows, not `11 + 1 = 12`. -/
theorem C9_counterexample :
    chart_y_length [Category.mk "A" [⟨-1, "x"⟩]] = some 1 ∧
    (chart_grid [Category.mk "A" [⟨-1, "x"⟩]]).map List.length = some 13 := by
  constructor
  · decide
  · with_unfolding_all rfl

/-- Witness for the amended C9 on the single category `B` with one recorded
withdrawal. -/
theorem C9_witness :
    ([['1', '0', '0', '|', ' ', 'o', ' ', ' '],
      [' ', '9', '0', '|', ' ', 'o', ' ', ' '],
      [' ', '8', '0', '|', ' ', 'o', ' ', ' '],
      [' ', '7', '0', '|', ' ', 'o', ' ', ' '],
      [' ', '6', '0', '|', ' ', 'o', ' ', ' '],
      [' ', '5', '0', '|', ' ', 'o', ' ', ' '],
      [' ', '4', '0', '|', ' ', 'o', ' ', ' '],
      [' ', '3', '0', '|', ' ', 'o', ' ', ' '],
      [' ', '2', '0', '|', ' ', 'o', ' ', ' '],
      [' ', '1', '0', '|', ' ', 'o', ' ', ' '],
      [' ', ' ', '0', '|', ' ', 'o', ' ', ' '],
      [' ', ' ', ' ', ' ', '-', '-', '-', '-'],
      [' ', ' ', ' ', ' ', ' ', 'B', ' ', ' ']] : List (List Char)).length = 12 + 1 ∧
    ∀ row ∈ ([['1', '0', '0', '|', ' ', 'o', ' ', ' '],
      [' ', '9', '0', '|', ' ', 'o', ' ', ' '],
      [' ', '8', '0', '|', ' ', 'o', ' ', ' '],
      [' ', '7', '0', '|', ' ', 'o', ' ', ' '],
      [' ', '6', '0', '|', ' ', 'o', ' ', ' '],
      [' ', '5', '0', '|', ' ', 'o', ' ', ' '],
      [' ', '4', '0', '|', ' ', 'o', ' ', ' '],
      [' ', '3', '0', '|', ' ', 'o', ' ', ' '],
      [' ', '2', '0', '|', ' ', 'o', ' ', ' '],
      [' ', '1', '0', '|', ' ', 'o', ' ', ' '],
      [' ', ' ', '0', '|', ' ', 'o', ' ', ' '],
      [' ', ' ', ' ', ' ', '-', '-', '-', '-'],
      [' ', ' ', ' ', ' ', ' ', 'B', ' ', ' ']] : List (List Char)),
      row.length = 5 + 3 * ([Category.mk "B" [⟨-2, "w"⟩]] : List Category).length :=
  C9_amended_grid_dimensions [Category.mk "B" [⟨-2, "w"⟩]] 1 _ (by decide)
    (by with_unfolding_all rfl)

/-- Claim C10: with the single category `A` holding a deposit of 1 and a
successful withdrawal of 1/2, every per-category withdrawal total is strictly
positive, yet `total_withdraw` truncates to the integer 0 before the
percentage division, `_resolve_percentage` divides by zero, and
`create_spend_chart` fails. -/
theorem C10_truncated_total_divides_by_zero :
    (0 : ℚ) < _calculate_category_withdraw (Category.mk "A" [⟨1, "d"⟩, ⟨-1/2, "g"⟩]) ∧
    chart_total_withdraw [Category.mk "A" [⟨1, "d"⟩, ⟨-1/2, "g"⟩]] = 0 ∧
    _resolve_percentage
        (_calculate_category_withdraw (Category.mk "A" [⟨1, "d"⟩, ⟨-1/2, "g"⟩]))
        ((chart_total_withdraw [Category.mk "A" [⟨1, "d"⟩, ⟨-1/2, "g"⟩]] : ℤ) : ℚ) =
      none ∧
    create_spend_chart [Category.mk "A" [⟨1, "d"⟩, ⟨-1/2, "g"⟩]] = none := by
  refine ⟨of_decide_eq_true (by with_unfolding_all rfl), by with_unfolding_all rfl,
    by with_unfolding_all rfl, by with_unfolding_all rfl⟩
